import Mathlib

/-!
# gozmq-monitor: the event codec, construction, the pump and teardown

A shallow embedding of `monitor.go`.  Pure code (`parseEvent`) is a Lean function.  Code that
talks to libzmq, to the monitored socket or to the poller is a function of the outcomes of those
calls, and it returns the list of effects it performs, in program order.
-/

namespace GozmqMonitor

/-! ## Bytes, byte order and loads through raw pointers -/

/-- One byte of a frame. -/
abbrev Byte := Fin 256

/-- The byte order of the host, which is the order a load through a raw pointer uses. -/
inductive ByteOrder
  | little
  | big
  deriving DecidableEq, Repr

/-- The unsigned 16-bit integer held in two consecutive bytes. -/
def load16 : ByteOrder → Byte → Byte → Nat
  | .little, b0, b1 => b0.val + 256 * b1.val
  | .big, b0, b1 => 256 * b0.val + b1.val

/-- The unsigned 32-bit integer held in four consecutive bytes. -/
def load32 : ByteOrder → Byte → Byte → Byte → Byte → Nat
  | .little, b0, b1, b2, b3 => b0.val + 256 * b1.val + 65536 * b2.val + 16777216 * b3.val
  | .big, b0, b1, b2, b3 => 16777216 * b0.val + 65536 * b1.val + 256 * b2.val + b3.val

/-- The signed reading (two's complement) of a 32-bit pattern, as Go's int32 has it. -/
def toInt32 (u : Nat) : Int :=
  if u % 4294967296 < 2147483648 then (u % 4294967296 : Nat) else ((u % 4294967296 : Nat) : Int) - 4294967296

/-- The byte found `i` bytes after the start of a slice.  Inside the slice it is the
slice element; from the length on it is whatever the memory after the slice holds
(`past 0` is the first byte after the last element).  A load through
`unsafe.Pointer` is not bounds checked, so it can reach those bytes. -/
def byteAt (frame : List Byte) (past : Nat → Byte) (i : Nat) : Byte :=
  if h : i < frame.length then frame.get ⟨i, h⟩ else past (i - frame.length)

/-- The load `*(*uint16)(unsafe.Pointer(p))` where `p` points `off` bytes into the frame. -/
def loadUint16 (order : ByteOrder) (frame : List Byte) (past : Nat → Byte) (off : Nat) : Nat :=
  load16 order (byteAt frame past off) (byteAt frame past (off + 1))

/-- The load `*(*int32)(unsafe.Pointer(p))` where `p` points `off` bytes into the frame. -/
def loadInt32 (order : ByteOrder) (frame : List Byte) (past : Nat → Byte) (off : Nat) : Int :=
  toInt32 (load32 order (byteAt frame past off) (byteAt frame past (off + 1))
    (byteAt frame past (off + 2)) (byteAt frame past (off + 3)))

/-! ## Errors and events -/

/-- A Go `error` value.  The only error this package builds itself is the version error of
`New`; every other error is handed over by gozmq or by the poller and is passed on as it is. -/
inductive GoError
  | unsupportedVersion (major minor patch : Int)
  | external (code : Nat)
  deriving DecidableEq, Repr

/-- The type `SocketEvent`.  `Addr` is a Go string, that is, a sequence of bytes. -/
structure SocketEvent where
  Event : Nat
  Value : Int
  Addr : List Byte
  Error : Option GoError
  deriving DecidableEq, Repr

/-- The event `&SocketEvent{Error: err}`: every other field keeps its zero value. -/
def errorEvent (err : GoError) : SocketEvent :=
  { Event := 0, Value := 0, Addr := [], Error := some err }

/-! ## parseEvent -/

/-- The value of `unsafe.Sizeof(e.Event)`, the size of a uint16. -/
def uint16Size : Nat := 2

/-- The value of `unsafe.Sizeof(e.Value)`, the size of an int32. -/
def int32Size : Nat := 4

/-- The three `panic` calls of `parseEvent`, with the operand each one prints. -/
inductive Panic
  | deprecatedAPI
  | invalidPayloadSize (frame : List Byte)
  | unexpectedPayload (frames : List (List Byte))
  deriving DecidableEq, Repr

/-- How a call of `parseEvent` ends: it returns an event or it panics. -/
inductive Outcome
  | returned (e : SocketEvent)
  | panicked (p : Panic)
  deriving DecidableEq, Repr

/-- One load through a raw pointer into the memory of `frames[0]`: the offset of the first
byte it reads and the number of bytes it reads. -/
structure Load where
  offset : Nat
  width : Nat
  deriving DecidableEq, Repr

/-- The body of `case 2` of `parseEvent` after the size check:
`event_raw := frames[0][:uint16Size]` starts at offset 0 and
`value_raw := frames[0][int32Size:]` starts at offset `int32Size`; the event is loaded from
`&event_raw[0]` and the value from `&value_raw[0]`. -/
def decodeFrames (order : ByteOrder) (past : Nat → Byte) (hdr addr : List Byte) : SocketEvent :=
  { Event := loadUint16 order hdr past 0
    Value := loadInt32 order hdr past int32Size
    Addr := addr
    Error := none }

/-- The function `Monitor.parseEvent`, together with the loads it makes through raw pointers
into `frames[0]`, in program order.  `past` is the memory that follows `frames[0]`. -/
def parseEventTraced (order : ByteOrder) (past : Nat → Byte) (frames : List (List Byte)) :
    Outcome × List Load :=
  match frames with
  | [_] => (.panicked .deprecatedAPI, [])
  | [hdr, addr] =>
    if hdr.length ≠ uint16Size + int32Size then
      (.panicked (.invalidPayloadSize hdr), [])
    else
      (.returned (decodeFrames order past hdr addr),
        [{ offset := 0, width := uint16Size }, { offset := int32Size, width := int32Size }])
  | _ => (.panicked (.unexpectedPayload frames), [])

/-- The function `Monitor.parseEvent`. -/
def parseEvent (order : ByteOrder) (past : Nat → Byte) (frames : List (List Byte)) : Outcome :=
  (parseEventTraced order past frames).1

/-- The loads `parseEvent` makes through raw pointers into `frames[0]`. -/
def parseEventLoads (order : ByteOrder) (past : Nat → Byte) (frames : List (List Byte)) :
    List Load :=
  (parseEventTraced order past frames).2

/-! ### The header layout as the specification words it -/

/-- The event code of a header as the specification has it: the unsigned 16-bit integer in
bytes 0 and 1. -/
def specHeaderEvent (order : ByteOrder) (hdr : List Byte) : Nat :=
  load16 order (hdr.getD 0 0) (hdr.getD 1 0)

/-- The value of a header as the specification has it: the signed 32-bit integer in bytes
2 to 5, the four bytes right after the event code. -/
def specHeaderValue (order : ByteOrder) (hdr : List Byte) : Int :=
  toInt32 (load32 order (hdr.getD 2 0) (hdr.getD 3 0) (hdr.getD 4 0) (hdr.getD 5 0))

/-- The byte with the value `n` modulo 256. -/
def byteOf (n : Nat) : Byte := ⟨n % 256, Nat.mod_lt n (by decide)⟩

/-- The two bytes that hold an event code in the given byte order. -/
def specEncodeUint16 : ByteOrder → Nat → List Byte
  | .little, n => [byteOf n, byteOf (n / 256)]
  | .big, n => [byteOf (n / 256), byteOf n]

/-- The four bytes that hold a signed 32-bit value in the given byte order. -/
def specEncodeInt32 (order : ByteOrder) (v : Int) : List Byte :=
  let u := (v % 4294967296).toNat
  match order with
  | .little => [byteOf u, byteOf (u / 256), byteOf (u / 65536), byteOf (u / 16777216)]
  | .big => [byteOf (u / 16777216), byteOf (u / 65536), byteOf (u / 256), byteOf u]

/-- The six-byte header the specification describes: the event code, then the value. -/
def specEncodeHeader (order : ByteOrder) (code : Nat) (v : Int) : List Byte :=
  specEncodeUint16 order code ++ specEncodeInt32 order v

/-! ## New -/

/-- A handle of a socket or of a poller that a collaborator created. -/
abbrev Handle := Nat

/-- The type `Monitor`: the private socket and the poller, nothing else. -/
structure Monitor where
  socket : Handle
  poller : Handle
  deriving DecidableEq, Repr

/-- The outcomes of the calls `New` makes: what `C.zmq_version` stores in `major`, `minor`
and `patch`, and the results of `ctx.NewSocket(zmq.PAIR)`, `socket.Monitor(addr, events)`,
`mon.Connect(addr)`, `mon.Close()` and `poller.New(ctx, 0)`. -/
structure NewEnv where
  major : Int
  minor : Int
  patch : Int
  newSocket : Except GoError Handle
  socketMonitor : Option GoError
  monConnect : Option GoError
  monClose : Option GoError
  pollerNew : Except GoError Handle

/-- The calls `New` makes to its collaborators. -/
inductive NewEffect
  | zmqVersion
  | newSocket
  | socketMonitor
  | monConnect (mon : Handle)
  | monClose (mon : Handle)
  | pollerNew
  deriving DecidableEq, Repr

/-- What `New` returns (`monitor` is `none` for a nil pointer) and the calls it made, in
program order. -/
structure NewResult where
  monitor : Option Monitor
  err : Option GoError
  effects : List NewEffect
  deriving DecidableEq, Repr

/-- The condition `major == 3 && minor >= 3` of the version check in `New`. -/
def versionGate (major minor : Int) : Bool :=
  major == 3 && decide (minor ≥ 3)

/-- The version requirement as the specification words it: major above 3, or major 3 and
minor at least 3. -/
def specVersionOk (major minor : Int) : Bool :=
  decide (major > 3) || (major == 3 && decide (minor ≥ 3))

/-- The function `New`. -/
def New (env : NewEnv) : NewResult :=
  if !(versionGate env.major env.minor) then
    { monitor := none
      err := some (.unsupportedVersion env.major env.minor env.patch)
      effects := [.zmqVersion] }
  else
    match env.newSocket with
    | .error e => { monitor := none, err := some e, effects := [.zmqVersion, .newSocket] }
    | .ok mon =>
      match env.socketMonitor with
      | some e =>
        { monitor := none, err := some e, effects := [.zmqVersion, .newSocket, .socketMonitor] }
      | none =>
        match env.monConnect with
        | some e =>
          { monitor := none, err := some e
            effects := [.zmqVersion, .newSocket, .socketMonitor, .monConnect mon, .monClose mon] }
        | none =>
          match env.pollerNew with
          | .error e =>
            { monitor := none, err := some e
              effects := [.zmqVersion, .newSocket, .socketMonitor, .monConnect mon, .pollerNew,
                .monClose mon] }
          | .ok p =>
            { monitor := some { socket := mon, poller := p }, err := none
              effects := [.zmqVersion, .newSocket, .socketMonitor, .monConnect mon, .pollerNew] }

/-! ## Start and the pump -/

/-- One value `res` read from the channel of the poller, with the outcomes of the calls the
loop body can make while it handles it: `self.socket.RecvMultipart(0)` (and the memory that
follows the first frame it returns) and `self.poller.Continue()`. -/
structure Notification where
  error : Option GoError
  recv : Except GoError (List (List Byte))
  past : Nat → Byte
  rearm : Option GoError

/-- What the pump goroutine does: calls to the socket and to the poller, sends on `eventCh`,
a panic raised by `parseEvent`, and `close(eventCh)`. -/
inductive PumpEffect
  | recvMultipart
  | pollerContinue
  | send (e : SocketEvent)
  | crashed (p : Panic)
  | closeEventCh
  deriving DecidableEq, Repr

/-- How one pass through the loop body ends: with `continue` or by reaching the end of the
body, with `break`, or with a panic that is not recovered. -/
inductive Ctl
  | next
  | stop
  | crash
  deriving DecidableEq, Repr

/-- The body of the loop `for res := range ch` in `Start`. -/
def pumpBody (order : ByteOrder) (n : Notification) : List PumpEffect × Ctl :=
  match n.error with
  | some err => ([.send (errorEvent err)], .stop)
  | none =>
    match n.recv with
    | .error ex => ([.recvMultipart, .send (errorEvent ex)], .next)
    | .ok frames =>
      match n.rearm with
      | some ex => ([.recvMultipart, .pollerContinue, .send (errorEvent ex)], .next)
      | none =>
        match parseEvent order n.past frames with
        | .returned e => ([.recvMultipart, .pollerContinue, .send e], .next)
        | .panicked p => ([.recvMultipart, .pollerContinue, .crashed p], .crash)

/-- The goroutine started by `Start`: the loop over the notifications the poller sends before
it closes its channel, then `close(eventCh)`.  A panic ends the goroutine (and the process)
on the spot. -/
def pump (order : ByteOrder) : List Notification → List PumpEffect
  | [] => [.closeEventCh]
  | n :: rest =>
    match pumpBody order n with
    | (effs, .next) => effs ++ pump order rest
    | (effs, .stop) => effs ++ [.closeEventCh]
    | (effs, .crash) => effs

/-- The function `Start`: when `self.poller.Poll` fails it returns the error and starts no
goroutine; otherwise it returns no error and the goroutine runs `pump`. -/
def Start (order : ByteOrder) (poll : Option GoError) (ns : List Notification) :
    Option GoError × List PumpEffect :=
  match poll with
  | some err => (some err, [])
  | none => (none, pump order ns)

/-- The events sent on `eventCh`, in the order they are sent. -/
def delivered : List PumpEffect → List SocketEvent
  | [] => []
  | .send e :: rest => e :: delivered rest
  | _ :: rest => delivered rest

/-- A received message is well formed: two frames, the first one six bytes long. -/
def WellFormed (frames : List (List Byte)) : Prop :=
  frames.length = 2 ∧ (frames.getD 0 []).length = 6

instance (frames : List (List Byte)) : Decidable (WellFormed frames) := by
  unfold WellFormed; infer_instance

/-- The event the specification expects for a notification that carries no error: the
receive error if the receive failed, otherwise the error of the re-arm call if that failed,
otherwise the decoded frames. -/
def specEventOf (order : ByteOrder) (n : Notification) : SocketEvent :=
  match n.recv with
  | .error ex => errorEvent ex
  | .ok frames =>
    match n.rearm with
    | some ex => errorEvent ex
    | none => decodeFrames order n.past (frames.getD 0 []) (frames.getD 1 [])

/-- The events the specification expects on the stream: one for each notification, up to and
including the first one that carries an error. -/
def specDelivered (order : ByteOrder) : List Notification → List SocketEvent
  | [] => []
  | n :: rest =>
    match n.error with
    | some err => [errorEvent err]
    | none => specEventOf order n :: specDelivered order rest

/-! ## Close and CloseWait -/

/-- The outcomes of the calls `Close` makes: the error of `self.poller.Close()` and the
result of `self.socket.Close()`. -/
structure CloseEnv where
  pollerClose : Option GoError
  socketClose : Option GoError

/-- What `Close`, its teardown goroutine and `CloseWait` do. -/
inductive CloseEffect
  | pollerClose (poller : Handle)
  | makeExitCh
  | spawnTeardown
  | recvPollerDone
  | socketClose (socket : Handle)
  | sendExit (v : Bool)
  | closeExit
  | recvExit
  deriving DecidableEq, Repr

/-- What `Close` returns (`exit` tells whether the channel returned is non-nil), what the
caller's goroutine did and what the teardown goroutine does, each in program order. -/
structure CloseResult where
  exit : Bool
  err : Option GoError
  caller : List CloseEffect
  teardown : List CloseEffect
  deriving DecidableEq, Repr

/-- The goroutine of `Close`: `<-ch`, then `self.socket.Close()` whose result is dropped,
then `exitCh <- true` and `close(exitCh)`. -/
def teardownTask (m : Monitor) (_socketClose : Option GoError) : List CloseEffect :=
  [.recvPollerDone, .socketClose m.socket, .sendExit true, .closeExit]

/-- The function `Monitor.Close`. -/
def Close (m : Monitor) (env : CloseEnv) : CloseResult :=
  match env.pollerClose with
  | some e => { exit := false, err := some e, caller := [.pollerClose m.poller], teardown := [] }
  | none =>
    { exit := true, err := none
      caller := [.pollerClose m.poller, .makeExitCh, .spawnTeardown]
      teardown := teardownTask m env.socketClose }

/-- The function `Monitor.CloseWait`: `Close`, and when it gave no error, a receive on the
channel it returned. -/
def CloseWait (m : Monitor) (env : CloseEnv) : CloseResult :=
  let r := Close m env
  match r.err with
  | some _ => r
  | none => { r with caller := r.caller ++ [.recvExit] }

/-- Two calls of `Close` on the same Monitor, one after the other.  `Close` neither reads nor
writes any state of the Monitor, so the second call sees the Monitor the first one saw. -/
def closeTwice (m : Monitor) (first second : CloseEnv) : CloseResult × CloseResult :=
  (Close m first, Close m second)

/-- The requirement the specification puts on a second `Close` of Monitor `m` with result
`r`: either the call closes neither the poller nor the private socket again, or it returns
an error. -/
def SecondCloseWellDefined (m : Monitor) (r : CloseResult) : Prop :=
  (CloseEffect.pollerClose m.poller ∉ r.caller ∧ CloseEffect.socketClose m.socket ∉ r.teardown)
    ∨ r.err ≠ none

/-- A Go channel of booleans: its capacity, the values buffered and whether it is closed. -/
structure Chan where
  cap : Nat
  buf : List Bool
  closed : Bool
  deriving DecidableEq, Repr

/-- The channel `make(chan bool, 1)`. -/
def exitChan : Chan := { cap := 1, buf := [], closed := false }

/-- A send that completes at once: `none` when the channel is closed (the send panics) or
full (the send blocks). -/
def Chan.send (c : Chan) (v : Bool) : Option Chan :=
  if c.closed then none
  else if c.buf.length < c.cap then some { c with buf := c.buf ++ [v] }
  else none

/-- The call `close(c)`: `none` when the channel is closed already (the call panics). -/
def Chan.close (c : Chan) : Option Chan :=
  if c.closed then none else some { c with closed := true }

/-- The state of the exit channel after a run of effects, `none` if one of them blocks or
panics. -/
def runExitCh : List CloseEffect → Chan → Option Chan
  | [], c => some c
  | .sendExit v :: rest, c => (c.send v).bind (runExitCh rest)
  | .closeExit :: rest, c => (c.close).bind (runExitCh rest)
  | _ :: rest, c => runExitCh rest c

/-! ## The event codec -/

theorem length_six_cases (hdr : List Byte) (h : hdr.length = 6) :
    ∃ b0 b1 b2 b3 b4 b5, hdr = [b0, b1, b2, b3, b4, b5] := by
  match hdr, h with
  | [b0, b1, b2, b3, b4, b5], _ => exact ⟨b0, b1, b2, b3, b4, b5, rfl⟩

theorem byteOf_val (n : Nat) : (byteOf n).val = n % 256 := rfl

/-- On two frames with a six-byte header `parseEvent` returns the decoded frames. -/
theorem parseEvent_two_frames (order : ByteOrder) (past : Nat → Byte) (hdr addr : List Byte)
    (h : hdr.length = 6) :
    parseEvent order past [hdr, addr] = .returned (decodeFrames order past hdr addr) := by
  simp [parseEvent, parseEventTraced, uint16Size, int32Size, h]

/-- The value `parseEvent` returns is made of bytes 4 and 5 of the header and of the two
bytes that follow the header in memory. -/
theorem decodeFrames_value (order : ByteOrder) (past : Nat → Byte) (b0 b1 b2 b3 b4 b5 : Byte)
    (addr : List Byte) :
    (decodeFrames order past [b0, b1, b2, b3, b4, b5] addr).Value
      = toInt32 (load32 order b4 b5 (past 0) (past 1)) := rfl

/-- C1, evaluated on the code: for the header that encodes event code 1 and value 7,
whatever the byte order and whatever the memory after the header holds, `parseEvent`
returns an event whose Value is not 7, though bytes 2 to 5 of the header hold 7. -/
theorem parseEvent_value_not_bytes_2_to_5 (order : ByteOrder) (past : Nat → Byte)
    (addr : List Byte) :
    specHeaderValue order (specEncodeHeader order 1 7) = 7 ∧
    ∃ e, parseEvent order past [specEncodeHeader order 1 7, addr] = .returned e ∧
      e.Value ≠ 7 := by
  refine ⟨by cases order <;> decide, ?_⟩
  have h0 := (past 0).isLt
  have h1 := (past 1).isLt
  cases order
  · refine ⟨_, parseEvent_two_frames _ past _ addr (by decide), ?_⟩
    show (decodeFrames ByteOrder.little past [byteOf 1, byteOf (1 / 256), byteOf 7,
      byteOf (7 / 256), byteOf (7 / 65536), byteOf (7 / 16777216)] addr).Value ≠ 7
    rw [decodeFrames_value]
    simp only [toInt32, load32, byteOf_val]
    split <;> omega
  · refine ⟨_, parseEvent_two_frames _ past _ addr (by decide), ?_⟩
    show (decodeFrames ByteOrder.big past [byteOf (1 / 256), byteOf 1, byteOf (7 / 16777216),
      byteOf (7 / 65536), byteOf (7 / 256), byteOf 7] addr).Value ≠ 7
    rw [decodeFrames_value]
    simp only [toInt32, load32, byteOf_val]
    split <;> omega

/-- C2: on two frames whose first frame is six bytes long, `parseEvent` returns an event with
no Error, whose Event is the unsigned 16-bit integer in bytes 0 and 1 of the first frame and
whose Addr is the second frame; so when bytes 0 and 1 are the encoding of an event code, the
Event returned is that code, and the address comes back unchanged. -/
theorem parseEvent_event_and_addr (order : ByteOrder) (past : Nat → Byte) (hdr addr : List Byte)
    (h : hdr.length = 6) :
    ∃ e, parseEvent order past [hdr, addr] = .returned e ∧ e.Error = none ∧
      e.Event = specHeaderEvent order hdr ∧ e.Addr = addr ∧
      ∀ code, code < 65536 → hdr.take 2 = specEncodeUint16 order code → e.Event = code := by
  refine ⟨_, parseEvent_two_frames order past hdr addr h, rfl, ?_, rfl, ?_⟩
  · obtain ⟨b0, b1, b2, b3, b4, b5, rfl⟩ := length_six_cases hdr h
    simp [decodeFrames, loadUint16, byteAt, specHeaderEvent]
  · obtain ⟨b0, b1, b2, b3, b4, b5, rfl⟩ := length_six_cases hdr h
    intro code hc henc
    cases order
    · simp only [specEncodeUint16, List.take_succ_cons, List.take_zero, List.cons.injEq,
        and_true] at henc
      obtain ⟨e0, e1⟩ := henc
      subst e0 e1
      have v0 := byteOf_val code
      have v1 := byteOf_val (code / 256)
      simp [decodeFrames, loadUint16, byteAt, load16]
      omega
    · simp only [specEncodeUint16, List.take_succ_cons, List.take_zero, List.cons.injEq,
        and_true] at henc
      obtain ⟨e0, e1⟩ := henc
      subst e0 e1
      have v0 := byteOf_val code
      have v1 := byteOf_val (code / 256)
      simp [decodeFrames, loadUint16, byteAt, load16]
      omega

/-- A witness for C2: event code 513 and a one-byte address, little endian. -/
theorem parseEvent_event_and_addr_witness :
    ([2, 1, 0, 0, 0, 0] : List Byte).length = 6 ∧
    ∃ e, parseEvent ByteOrder.little (fun _ => 0) [[2, 1, 0, 0, 0, 0], [65]] = .returned e ∧
      e.Error = none ∧
      e.Event = specHeaderEvent ByteOrder.little [2, 1, 0, 0, 0, 0] ∧ e.Addr = [65] ∧
      ∀ code, code < 65536 →
        ([2, 1, 0, 0, 0, 0] : List Byte).take 2 = specEncodeUint16 ByteOrder.little code →
        e.Event = code :=
  ⟨by decide, parseEvent_event_and_addr ByteOrder.little (fun _ => 0) [2, 1, 0, 0, 0, 0] [65]
    (by decide)⟩

/-- C3, as the code has it: one frame makes `parseEvent` panic; it returns no event, with or
without an Error. -/
theorem parseEvent_one_frame_returns_nothing :
    ¬ ∃ e, parseEvent ByteOrder.little (fun _ => 0) [[1, 0, 0, 0, 0, 0]] = .returned e := by
  rintro ⟨e, he⟩
  exact Outcome.noConfusion he

/-- C3, amended: for every message whose frame count is not 2, `parseEvent` panics and
returns nothing: with the panic of the deprecated monitor API when there is exactly one
frame, and with the panic for an unexpected payload, which prints the frames, when there are
no frames or three or more. -/
theorem parseEvent_wrong_frame_count (order : ByteOrder) (past : Nat → Byte)
    (frames : List (List Byte)) (h : frames.length ≠ 2) :
    parseEvent order past frames
      = .panicked (if frames.length = 1 then .deprecatedAPI else .unexpectedPayload frames) := by
  match frames, h with
  | [], _ => rfl
  | [_], _ => rfl
  | [_, _], h => exact absurd rfl h
  | _ :: _ :: _ :: _, _ => rfl

/-- A witness for the amended C3: a message of three frames. -/
theorem parseEvent_wrong_frame_count_witness :
    ([[1], [2], [3]] : List (List Byte)).length ≠ 2 ∧
    parseEvent ByteOrder.little (fun _ => 0) [[1], [2], [3]]
      = .panicked (if ([[1], [2], [3]] : List (List Byte)).length = 1 then .deprecatedAPI
          else .unexpectedPayload [[1], [2], [3]]) :=
  ⟨by decide, parseEvent_wrong_frame_count ByteOrder.little (fun _ => 0) [[1], [2], [3]]
    (by decide)⟩

/-- C10: `parseEvent` returns an event exactly when there are two frames and the first one is
six bytes long; in every other case it panics before it loads anything from the first frame;
and a load that starts in bytes 0 to 1, when it is made, lies inside the first frame. -/
theorem parseEvent_returns_iff_well_formed (order : ByteOrder) (past : Nat → Byte)
    (frames : List (List Byte)) :
    ((∃ e, parseEvent order past frames = .returned e) ↔ WellFormed frames) ∧
    (¬ WellFormed frames →
      (∃ p, parseEvent order past frames = .panicked p) ∧ parseEventLoads order past frames = []) ∧
    (WellFormed frames →
      { offset := 0, width := 2 } ∈ parseEventLoads order past frames) ∧
    (∀ l ∈ parseEventLoads order past frames, l.offset < uint16Size →
      l.offset + l.width ≤ (frames.getD 0 []).length) := by
  match frames with
  | [] => simp [parseEvent, parseEventLoads, parseEventTraced, WellFormed]
  | [_] => simp [parseEvent, parseEventLoads, parseEventTraced, WellFormed]
  | _ :: _ :: _ :: _ => simp [parseEvent, parseEventLoads, parseEventTraced, WellFormed]
  | [hdr, addr] =>
    by_cases h : hdr.length = 6
    · simp [parseEvent, parseEventLoads, parseEventTraced, WellFormed, uint16Size, int32Size, h]
    · simp [parseEvent, parseEventLoads, parseEventTraced, WellFormed, uint16Size, int32Size, h]

/-! ## New -/

/-- The version check of `New` lets through major 3 with minor at least 3 and nothing else. -/
theorem versionGate_iff (major minor : Int) :
    versionGate major minor = true ↔ major = 3 ∧ minor ≥ 3 := by
  simp [versionGate]

/-- C4, evaluated on the code: libzmq 4.0 meets the requirement the specification states,
and the error text of `New` states the same requirement (at least 3.3.0), yet `New` rejects
it: it returns the version error for 4.0 and no Monitor, having called nothing but
`zmq_version`. -/
theorem New_rejects_major_4 (patch : Int) (ns pn : Except GoError Handle)
    (sm mc cl : Option GoError) :
    specVersionOk 4 0 = true ∧
    New { major := 4, minor := 0, patch := patch, newSocket := ns, socketMonitor := sm,
          monConnect := mc, monClose := cl, pollerNew := pn }
      = { monitor := none, err := some (.unsupportedVersion 4 0 patch),
          effects := [.zmqVersion] } :=
  ⟨by decide, rfl⟩

/-- The two sibling paths of `New`: when `mon.Connect` fails, or when `poller.New` fails,
the private socket is closed as the last call and the error is returned without a Monitor. -/
theorem New_later_failures_close_socket (patch : Int) (mon : Handle) (e : GoError)
    (pn : Except GoError Handle) (cl : Option GoError) :
    New { major := 3, minor := 3, patch := patch, newSocket := .ok mon, socketMonitor := none,
          monConnect := some e, monClose := cl, pollerNew := pn }
      = { monitor := none, err := some e,
          effects := [.zmqVersion, .newSocket, .socketMonitor, .monConnect mon,
            .monClose mon] } ∧
    New { major := 3, minor := 3, patch := patch, newSocket := .ok mon, socketMonitor := none,
          monConnect := none, monClose := cl, pollerNew := .error e }
      = { monitor := none, err := some e,
          effects := [.zmqVersion, .newSocket, .socketMonitor, .monConnect mon, .pollerNew,
            .monClose mon] } :=
  ⟨rfl, rfl⟩

/-- C5, evaluated on the code: with libzmq 3.3, the private socket created and
`socket.Monitor` failing, `New` returns the error and no Monitor right after that call:
the private socket is never closed. -/
theorem New_monitor_failure_leaves_socket_open (patch : Int) (mon : Handle) (e : GoError)
    (pn : Except GoError Handle) (mc cl : Option GoError) :
    New { major := 3, minor := 3, patch := patch, newSocket := .ok mon, socketMonitor := some e,
          monConnect := mc, monClose := cl, pollerNew := pn }
      = { monitor := none, err := some e,
          effects := [.zmqVersion, .newSocket, .socketMonitor] } ∧
    NewEffect.monClose mon ∉
      (New { major := 3, minor := 3, patch := patch, newSocket := .ok mon,
             socketMonitor := some e, monConnect := mc, monClose := cl,
             pollerNew := pn }).effects := by
  refine ⟨rfl, ?_⟩
  show NewEffect.monClose mon ∉ [NewEffect.zmqVersion, .newSocket, .socketMonitor]
  simp

/-! ## Close -/

/-- C6: when `self.poller.Close()` succeeds, the teardown goroutine waits for the poller,
then closes the private socket, then sends one value on the exit channel and closes it; the
caller closes no socket; the exit channel ends up closed with exactly that one value in it,
no send blocking; and the result of closing the socket changes none of this. -/
theorem Close_teardown_order (m : Monitor) (env : CloseEnv) (h : env.pollerClose = none) :
    (Close m env).teardown
      = [.recvPollerDone, .socketClose m.socket, .sendExit true, .closeExit] ∧
    CloseEffect.socketClose m.socket ∉ (Close m env).caller ∧
    runExitCh (Close m env).teardown exitChan = some { cap := 1, buf := [true], closed := true } ∧
    ∀ sc, (Close m { env with socketClose := sc }).teardown = (Close m env).teardown := by
  obtain ⟨pc, sc0⟩ := env
  simp only at h
  subst h
  refine ⟨rfl, ?_, rfl, fun _ => rfl⟩
  show CloseEffect.socketClose m.socket ∉
    [CloseEffect.pollerClose m.poller, .makeExitCh, .spawnTeardown]
  simp

/-- A witness for C6: a Monitor with socket 1 and poller 2, every call succeeding. -/
theorem Close_teardown_order_witness :
    (Close ⟨1, 2⟩ ⟨none, none⟩).teardown
      = [.recvPollerDone, .socketClose 1, .sendExit true, .closeExit] ∧
    CloseEffect.socketClose 1 ∉ (Close ⟨1, 2⟩ ⟨none, none⟩).caller ∧
    runExitCh (Close ⟨1, 2⟩ ⟨none, none⟩).teardown exitChan
      = some { cap := 1, buf := [true], closed := true } ∧
    ∀ sc, (Close ⟨1, 2⟩ { (⟨none, none⟩ : CloseEnv) with socketClose := sc }).teardown
      = (Close ⟨1, 2⟩ ⟨none, none⟩).teardown :=
  Close_teardown_order ⟨1, 2⟩ ⟨none, none⟩ rfl

/-- C8, as the code has it: when the poller accepts a second `Close`, the second `Close` of
the Monitor returns no error and closes both the poller and the private socket again. -/
theorem second_Close_not_well_defined :
    ¬ SecondCloseWellDefined ⟨1, 2⟩ (closeTwice ⟨1, 2⟩ ⟨none, none⟩ ⟨none, none⟩).2 := by
  unfold SecondCloseWellDefined
  decide

/-- C8, amended: the Monitor keeps no record of having been closed, so a second `Close` (or
`CloseWait`) does what a first one does.  It calls `Close` on the poller again; if that
fails it returns that error as it is and starts no teardown; if that succeeds it returns
no error and a new teardown goroutine closes the private socket again. -/
theorem second_Close_repeats_first (m : Monitor) (first second : CloseEnv) :
    (closeTwice m first second).2 = Close m second ∧
    (Close m second).caller.head? = some (.pollerClose m.poller) ∧
    (CloseWait m second).caller.head? = some (.pollerClose m.poller) ∧
    (CloseWait m second).err = (Close m second).err ∧
    (CloseWait m second).teardown = (Close m second).teardown ∧
    (Close m second).err = second.pollerClose ∧
    (Close m second).teardown =
      if second.pollerClose = none then
        [.recvPollerDone, .socketClose m.socket, .sendExit true, .closeExit]
      else [] := by
  obtain ⟨pc, sc⟩ := second
  cases pc <;> simp [closeTwice, Close, CloseWait, teardownTask]

/-! ## The pump -/

theorem delivered_append (xs ys : List PumpEffect) :
    delivered (xs ++ ys) = delivered xs ++ delivered ys := by
  induction xs with
  | nil => rfl
  | cons x xs ih => cases x <;> simp [delivered, ih]

/-- On a well-formed message `parseEvent` returns the decoding of its two frames. -/
theorem parseEvent_well_formed (order : ByteOrder) (past : Nat → Byte)
    (frames : List (List Byte)) (h : WellFormed frames) :
    parseEvent order past frames
      = .returned (decodeFrames order past (frames.getD 0 []) (frames.getD 1 [])) := by
  obtain ⟨h2, h6⟩ := h
  match frames, h2, h6 with
  | [hdr, addr], _, h6 => exact parseEvent_two_frames order past hdr addr (by simpa using h6)

/-- The loop body on a notification without error whose message, if one is received, is well
formed: it sends the expected event after its calls and goes on to the next notification. -/
theorem pumpBody_well_formed (order : ByteOrder) (n : Notification) (he : n.error = none)
    (h : ∀ frames, n.recv = .ok frames → WellFormed frames) :
    ∃ calls, pumpBody order n = (calls ++ [.send (specEventOf order n)], .next) ∧
      delivered calls = [] ∧ PumpEffect.closeEventCh ∉ calls ∧ ∀ p, PumpEffect.crashed p ∉ calls := by
  obtain ⟨err, recv, past, rearm⟩ := n
  simp only at he h
  subst he
  cases recv with
  | error ex => exact ⟨[.recvMultipart], rfl, rfl, by simp, by simp⟩
  | ok frames =>
    cases rearm with
    | some ex => exact ⟨[.recvMultipart, .pollerContinue], rfl, rfl, by simp, by simp⟩
    | none =>
      refine ⟨[.recvMultipart, .pollerContinue], ?_, rfl, by simp, by simp⟩
      simp [pumpBody, specEventOf, parseEvent_well_formed order past frames (h frames rfl)]

/-- C7: when every message received is well formed, the events the pump sends on the stream
are the expected ones, one for each notification in order, up to and including the first
notification that carries an error; the pump does not panic; and `close(eventCh)` is the
last thing it does, so nothing is sent after it. -/
theorem pump_delivers_expected (order : ByteOrder) (ns : List Notification)
    (h : ∀ n ∈ ns, ∀ frames, n.recv = .ok frames → WellFormed frames) :
    delivered (pump order ns) = specDelivered order ns ∧
    ∃ pre, pump order ns = pre ++ [.closeEventCh] ∧ PumpEffect.closeEventCh ∉ pre ∧
      ∀ p, PumpEffect.crashed p ∉ pre := by
  induction ns with
  | nil => exact ⟨rfl, [], rfl, by simp, by simp⟩
  | cons n rest ih =>
    have hrest := ih (fun m hm => h m (List.mem_cons_of_mem _ hm))
    cases hn : n.error with
    | some err =>
      have hb : pumpBody order n = ([.send (errorEvent err)], .stop) := by
        simp [pumpBody, hn]
      refine ⟨by simp [pump, hb, specDelivered, hn, delivered], [.send (errorEvent err)], ?_, ?_, ?_⟩
      · simp [pump, hb]
      · simp
      · simp
    | none =>
      obtain ⟨calls, hb, hd, hc, hp⟩ := pumpBody_well_formed order n hn (h n (List.mem_cons_self _ _))
      obtain ⟨hdel, pre, hpre, hnc, hnp⟩ := hrest
      refine ⟨?_, calls ++ [.send (specEventOf order n)] ++ pre, ?_, ?_, ?_⟩
      · simp [pump, hb, specDelivered, hn, delivered_append, hd, hdel, delivered]
      · simp [pump, hb, hpre]
      · simp [hc, hnc]
      · intro p
        simp [hp p, hnp p]

/-- A witness for C7: a data event, a failed receive, then a notification with an error. -/
theorem pump_delivers_expected_witness :
    delivered (pump ByteOrder.little
        [⟨none, .ok [[1, 0, 0, 0, 0, 0], [65]], fun _ => 0, none⟩,
         ⟨none, .error (.external 5), fun _ => 0, none⟩,
         ⟨some (.external 9), .error (.external 6), fun _ => 0, none⟩])
      = specDelivered ByteOrder.little
        [⟨none, .ok [[1, 0, 0, 0, 0, 0], [65]], fun _ => 0, none⟩,
         ⟨none, .error (.external 5), fun _ => 0, none⟩,
         ⟨some (.external 9), .error (.external 6), fun _ => 0, none⟩] ∧
    ∃ pre, pump ByteOrder.little
        [⟨none, .ok [[1, 0, 0, 0, 0, 0], [65]], fun _ => 0, none⟩,
         ⟨none, .error (.external 5), fun _ => 0, none⟩,
         ⟨some (.external 9), .error (.external 6), fun _ => 0, none⟩]
        = pre ++ [.closeEventCh] ∧ PumpEffect.closeEventCh ∉ pre ∧
      ∀ p, PumpEffect.crashed p ∉ pre :=
  pump_delivers_expected ByteOrder.little
    [⟨none, .ok [[1, 0, 0, 0, 0, 0], [65]], fun _ => 0, none⟩,
     ⟨none, .error (.external 5), fun _ => 0, none⟩,
     ⟨some (.external 9), .error (.external 6), fun _ => 0, none⟩]
    (by
      intro n hn frames hf
      simp only [List.mem_cons, List.mem_singleton, List.not_mem_nil, or_false] at hn
      rcases hn with rfl | rfl | rfl
      · cases hf; decide
      · cases hf
      · cases hf)

/-- C9, as the code has it: when the receive fails on a notification without error, the loop
body sends the error and goes on without any call of `Continue`. -/
theorem pumpBody_failed_receive_skips_rearm :
    (⟨none, .error (.external 5), fun _ => 0, none⟩ : Notification).error = none ∧
    (pumpBody ByteOrder.little ⟨none, .error (.external 5), fun _ => 0, none⟩).1
      = [.recvMultipart, .send (errorEvent (.external 5))] ∧
    (pumpBody ByteOrder.little ⟨none, .error (.external 5), fun _ => 0, none⟩).1.count
      .pollerContinue ≠ 1 := by
  refine ⟨rfl, rfl, ?_⟩
  decide

/-- C9, amended: for every notification without error whose receive succeeds, the loop body
calls `Continue` exactly once, right after the receive, and only then sends an event (or
panics in `parseEvent`); nothing is sent before the call. -/
theorem pumpBody_rearms_once_after_receive (order : ByteOrder) (n : Notification)
    (frames : List (List Byte)) (he : n.error = none) (hr : n.recv = .ok frames) :
    (pumpBody order n).1.count .pollerContinue = 1 ∧
    ∃ last, (pumpBody order n).1 = [.recvMultipart, .pollerContinue, last] ∧
      ((∃ e, last = .send e) ∨ (∃ p, last = .crashed p)) := by
  obtain ⟨err, recv, past, rearm⟩ := n
  simp only at he hr
  subst he hr
  cases rearm with
  | some ex =>
    have hb : pumpBody order ⟨none, .ok frames, past, some ex⟩
        = ([.recvMultipart, .pollerContinue, .send (errorEvent ex)], .next) := rfl
    rw [hb]
    exact ⟨by simp [List.count_cons], _, rfl, Or.inl ⟨_, rfl⟩⟩
  | none =>
    cases hp : parseEvent order past frames with
    | returned e =>
      have hb : pumpBody order ⟨none, .ok frames, past, none⟩
          = ([.recvMultipart, .pollerContinue, .send e], .next) := by
        simp [pumpBody, hp]
      rw [hb]
      exact ⟨by simp [List.count_cons], _, rfl, Or.inl ⟨_, rfl⟩⟩
    | panicked p =>
      have hb : pumpBody order ⟨none, .ok frames, past, none⟩
          = ([.recvMultipart, .pollerContinue, .crashed p], .crash) := by
        simp [pumpBody, hp]
      rw [hb]
      exact ⟨by simp [List.count_cons], _, rfl, Or.inr ⟨_, rfl⟩⟩

/-- A witness for the amended C9: a well-formed message, `Continue` succeeding. -/
theorem pumpBody_rearms_once_after_receive_witness :
    (pumpBody ByteOrder.little ⟨none, .ok [[1, 0, 0, 0, 0, 0], [65]], fun _ => 0, none⟩).1.count
      .pollerContinue = 1 ∧
    ∃ last, (pumpBody ByteOrder.little
        ⟨none, .ok [[1, 0, 0, 0, 0, 0], [65]], fun _ => 0, none⟩).1
        = [.recvMultipart, .pollerContinue, last] ∧
      ((∃ e, last = .send e) ∨ (∃ p, last = .crashed p)) :=
  pumpBody_rearms_once_after_receive ByteOrder.little
    ⟨none, .ok [[1, 0, 0, 0, 0, 0], [65]], fun _ => 0, none⟩ [[1, 0, 0, 0, 0, 0], [65]] rfl rfl

end GozmqMonitor
